import Mathlib

/-!
Verification of the nucypher safe-logging core against its specification.

The repository snapshot ships the unit tests of the logging facade but not
the module under test itself, so every operation
below is modelled from the specification text (SafeFormatter, EventLogger,
GlobalLoggerSettings). Strings are modelled as lists of code points
(`List Char`), matching the spec's requirement that the substitution is done
on opaque code points, never at the byte level.
-/

namespace NucypherLog

set_option autoImplicit false

/-- Modelled from the spec: `Logger.escape_format_string` from the missing
module `nucypher/utilities/logging.py`. The spec's algorithm: replace every
literal left brace with a doubled left brace and every literal right brace
with a doubled right brace, all other code points unchanged. -/
def escape_format_string : List Char → List Char
  | [] => []
  | '{' :: rest => '{' :: '{' :: escape_format_string rest
  | '}' :: rest => '}' :: '}' :: escape_format_string rest
  | c :: rest => c :: escape_format_string rest

/-- Modelled from the spec: the external template formatter (collaborator of
this core, section 6 of the spec). It treats a doubled brace as an escape for
one literal brace, and any single brace as field-delimiter syntax, which with
no bound fields raises (modelled as `none`); `some out` models a
non-raising call returning `out`. -/
def format : List Char → Option (List Char)
  | [] => some []
  | '{' :: '{' :: rest => Option.map (List.cons '{') (format rest)
  | '}' :: '}' :: rest => Option.map (List.cons '}') (format rest)
  | '{' :: _ => none
  | '}' :: _ => none
  | c :: rest => Option.map (List.cons c) (format rest)

/-- Is a code point one of the two brace characters? -/
def isBrace (c : Char) : Bool := c == '{' || c == '}'

/-- Single-character substitution: replace every occurrence of `t` in the
input with the block `r`, leaving other characters unchanged. Used to state
that the two brace substitutions are independent. -/
def replaceChar (t : Char) (r : List Char) : List Char → List Char
  | [] => []
  | c :: rest => (if c = t then r else [c]) ++ replaceChar t r rest

lemma format_escape (s : List Char) : format (escape_format_string s) = some s := by
  induction s with
  | nil => simp [escape_format_string, format]
  | cons c rest ih =>
    by_cases h1 : c = '{'
    · subst h1
      simp [escape_format_string, format, ih]
    · by_cases h2 : c = '}'
      · subst h2
        simp [escape_format_string, format, ih]
      · simp [escape_format_string, format, h1, h2, ih]

/-- Claim C1: for every string, including the empty string and strings made
purely of unmatched braces, feeding `escape_format_string s` to the template
formatter does not raise (result is `some`) and the formatted result is
exactly `s`. -/
theorem format_escape_roundtrip (s : List Char) :
    format (escape_format_string s) = some s :=
  format_escape s

lemma replaceChar_append (t : Char) (r a b : List Char) :
    replaceChar t r (a ++ b) = replaceChar t r a ++ replaceChar t r b := by
  induction a with
  | nil => simp [replaceChar]
  | cons c rest ih => simp [replaceChar, ih]

lemma replace_lbrace_then_rbrace (s : List Char) :
    replaceChar '}' ['}', '}'] (replaceChar '{' ['{', '{'] s) =
      escape_format_string s := by
  induction s with
  | nil => simp [replaceChar, escape_format_string]
  | cons c rest ih =>
    by_cases h1 : c = '{'
    · subst h1
      simp [replaceChar, replaceChar_append, escape_format_string, ih]
    · by_cases h2 : c = '}'
      · subst h2
        simp [replaceChar, replaceChar_append, escape_format_string, ih]
      · simp [replaceChar, replaceChar_append, escape_format_string, h1, h2, ih]

lemma replace_rbrace_then_lbrace (s : List Char) :
    replaceChar '{' ['{', '{'] (replaceChar '}' ['}', '}'] s) =
      escape_format_string s := by
  induction s with
  | nil => simp [replaceChar, escape_format_string]
  | cons c rest ih =>
    by_cases h1 : c = '{'
    · subst h1
      simp [replaceChar, replaceChar_append, escape_format_string, ih]
    · by_cases h2 : c = '}'
      · subst h2
        simp [replaceChar, replaceChar_append, escape_format_string, ih]
      · simp [replaceChar, replaceChar_append, escape_format_string, h1, h2, ih]

lemma escape_of_no_brace (s : List Char) (h : ∀ c ∈ s, isBrace c = false) :
    escape_format_string s = s := by
  induction s with
  | nil => rfl
  | cons c rest ih =>
    have hc : isBrace c = false := h c (by simp)
    have h1 : ¬(c = '{') := by
      intro he; subst he; simp [isBrace] at hc
    have h2 : ¬(c = '}') := by
      intro he; subst he; simp [isBrace] at hc
    have ht : ∀ d ∈ rest, isBrace d = false := fun d hd => h d (by simp [hd])
    simp [escape_format_string, h1, h2, ih ht]

/-- Claim C2: the escape operation is exactly the independent substitution
of a doubled left brace for each left brace and a doubled right brace for
each right brace; the two single-character substitutions commute (order does
not matter), and on a string with no brace character the operation is the
identity. -/
theorem escape_is_independent_brace_doubling (s : List Char) :
    replaceChar '}' ['}', '}'] (replaceChar '{' ['{', '{'] s) =
        escape_format_string s ∧
    replaceChar '{' ['{', '{'] (replaceChar '}' ['}', '}'] s) =
        escape_format_string s ∧
    ((∀ c ∈ s, isBrace c = false) → escape_format_string s = s) :=
  ⟨replace_lbrace_then_rbrace s, replace_rbrace_then_lbrace s,
    escape_of_no_brace s⟩

/-- Witness for C2 at concrete inputs: the brace-free string `ab` is left
unchanged, and the sequential double-substitution agrees with the escape on
the string `a` followed by a left brace. -/
theorem escape_is_independent_brace_doubling_witness :
    escape_format_string ['a', 'b'] = ['a', 'b'] ∧
    replaceChar '}' ['}', '}'] (replaceChar '{' ['{', '{'] ['a', '{']) =
      escape_format_string ['a', '{'] :=
  ⟨(escape_is_independent_brace_doubling ['a', 'b']).2.2 (by decide),
    (escape_is_independent_brace_doubling ['a', '{']).1⟩

lemma escape_length (s : List Char) :
    (escape_format_string s).length = s.length + s.countP isBrace := by
  induction s with
  | nil => rfl
  | cons c rest ih =>
    by_cases h1 : c = '{'
    · subst h1
      simp [escape_format_string, List.countP_cons, isBrace, ih]
      omega
    · by_cases h2 : c = '}'
      · subst h2
        simp [escape_format_string, List.countP_cons, isBrace, ih]
        omega
      · simp [escape_format_string, List.countP_cons, isBrace, h1, h2, ih]
        omega

lemma escape_countP (s : List Char) :
    (escape_format_string s).countP isBrace = 2 * s.countP isBrace := by
  induction s with
  | nil => rfl
  | cons c rest ih =>
    by_cases h1 : c = '{'
    · subst h1
      simp [escape_format_string, List.countP_cons, isBrace, ih]
      omega
    · by_cases h2 : c = '}'
      · subst h2
        simp [escape_format_string, List.countP_cons, isBrace, ih]
        omega
      · simp [escape_format_string, List.countP_cons, isBrace, h1, h2, ih]

lemma escape_ne_of_brace (s : List Char) (h : 0 < s.countP isBrace) :
    escape_format_string s ≠ s := by
  intro heq
  have hlen := congrArg List.length heq
  rw [escape_length] at hlen
  omega

/-- Claim C7: the escape operation is not idempotent on brace-containing
input: for every string with at least one brace character, escaping twice
differs from escaping once, and formatting the twice-escaped string does not
give back the original. -/
theorem escape_not_idempotent (s : List Char)
    (h : ∃ c ∈ s, isBrace c = true) :
    escape_format_string (escape_format_string s) ≠ escape_format_string s ∧
    format (escape_format_string (escape_format_string s)) ≠ some s := by
  have hpos : 0 < s.countP isBrace := List.countP_pos_iff.mpr h
  refine ⟨?_, ?_⟩
  · apply escape_ne_of_brace
    rw [escape_countP]
    omega
  · rw [format_escape]
    intro heq
    exact escape_ne_of_brace s hpos (Option.some.inj heq)

/-- Witness for C7 at the one-character string consisting of a left brace. -/
theorem escape_not_idempotent_witness :
    escape_format_string (escape_format_string ['{']) ≠
        escape_format_string ['{'] ∧
    format (escape_format_string (escape_format_string ['{'])) ≠
        some ['{'] :=
  escape_not_idempotent ['{'] (by decide)

/-- Modelled from the spec: the ordered log level enumeration
(debug, info, warn, error, critical), totally ordered by severity. -/
inductive LogLevel
  | debug
  | info
  | warn
  | error
  | critical
deriving DecidableEq

/-- Numeric severity of a level, used for the total order. -/
def LogLevel.toNat : LogLevel → Nat
  | .debug => 0
  | .info => 1
  | .warn => 2
  | .error => 3
  | .critical => 4

/-- Sinks are identified by an abstract instance identifier. -/
abbrev Sink := Nat

/-- Modelled from the spec: `GlobalLoggerSettings.LoggingType`, the fixed
enumeration of sink kinds, one registry slot per kind. -/
inductive LoggingType
  | CONSOLE
  | TEXT
  | JSON
  | SENTRY
deriving DecidableEq

/-- Modelled from the spec: the global registry mapping each sink kind to an
optional live sink instance (`GlobalLoggerSettings._observers`). One slot per
kind, so the registry can never hold two live instances of the same kind. -/
structure Registry where
  console : Option Sink
  text : Option Sink
  json : Option Sink
  sentry : Option Sink
deriving DecidableEq

/-- Slot lookup by sink kind. -/
def Registry.get (r : Registry) : LoggingType → Option Sink
  | .CONSOLE => r.console
  | .TEXT => r.text
  | .JSON => r.json
  | .SENTRY => r.sentry

/-- Slot update by sink kind. -/
def Registry.set (r : Registry) (k : LoggingType) (v : Option Sink) : Registry :=
  match k with
  | .CONSOLE => { r with console := v }
  | .TEXT => { r with text := v }
  | .JSON => { r with json := v }
  | .SENTRY => { r with sentry := v }

/-- The registry with every slot empty. -/
def emptyRegistry : Registry := ⟨none, none, none, none⟩

/-- Modelled from the spec: the process-wide logging state: the sink
registry, the subscriber list of the underlying event bus
(`globalLogPublisher._observers`), and the global level floor. -/
structure GlobalState where
  registry : Registry
  busSubscribers : List Sink
  logLevel : LogLevel
deriving DecidableEq

/-- Modelled from the spec: `start_<kind>`. If the kind is already started,
no-op returning the existing instance; otherwise run the external sink
constructor (`ctor`, whose failure is an `Except.error`): on failure the
error is returned to the caller with the state untouched, on success the new
sink is registered in its slot and attached to the event bus. -/
def start_logging (kind : LoggingType) (ctor : Except Nat Sink)
    (st : GlobalState) : GlobalState × Except Nat Sink :=
  match st.registry.get kind with
  | some s => (st, Except.ok s)
  | none =>
    match ctor with
    | Except.error e => (st, Except.error e)
    | Except.ok ns =>
        ({ st with
            registry := st.registry.set kind (some ns),
            busSubscribers := st.busSubscribers ++ [ns] }, Except.ok ns)

/-- Modelled from the spec: `stop_<kind>`. If the kind is started, detach its
sink from the event bus and clear its registry slot; if already stopped,
no-op. -/
def stop_logging (kind : LoggingType) (st : GlobalState) : GlobalState :=
  match st.registry.get kind with
  | none => st
  | some s =>
      { st with
          registry := st.registry.set kind none,
          busSubscribers := st.busSubscribers.erase s }

/-- A log event as stored for a sink: its level and the escaped message.
Logger name and wall-clock timestamp of the spec's record are omitted; no
claim mentions them. -/
structure LogEvent where
  level : LogLevel
  message : List Char
deriving DecidableEq

/-- Modelled from the spec: one log call dispatching to the live sinks.
If the call's level is strictly below the global floor the event is dropped,
otherwise the event (with the escaped message) is delivered once to every
sink in the list. The result is the list of deliveries (sink, event). -/
def emitToSinks (floor : LogLevel) (sinks : List Sink) (l : LogLevel)
    (msg : List Char) : List (Sink × LogEvent) :=
  if l.toNat < floor.toNat then []
  else sinks.map (fun s => (s, ⟨l, escape_format_string msg⟩))

/-- Deliveries of one log call to the event bus subscribers of a state. -/
def busDeliveries (st : GlobalState) (l : LogLevel) (msg : List Char) :
    List (Sink × LogEvent) :=
  emitToSinks st.logLevel st.busSubscribers l msg

/-- Modelled from the spec: the state seen inside the
`pause_all_logging_while` scope: every sink detached from the event bus and
the registry conceptually empty; the level floor is untouched. -/
def pausedState (st : GlobalState) : GlobalState :=
  { st with registry := emptyRegistry, busSubscribers := [] }

/-- Modelled from the spec: `pause_all_logging_while`. On entry the current
registry and bus subscribers are snapshotted and detached; the body runs on
the paused state and may end normally (`none`) or with an error
(`some code`); on either exit path the snapshot is restored exactly. -/
def pause_all_logging_while (body : GlobalState → Option Nat × GlobalState)
    (st : GlobalState) : Option Nat × GlobalState :=
  let r := body (pausedState st)
  (r.1, { r.2 with
            registry := st.registry,
            busSubscribers := st.busSubscribers })

/-- Claim C3: a log call strictly below the global level floor is dropped
(no sink invoked); a log call at or above the floor delivers exactly one
invocation to each currently live sink. -/
theorem log_level_floor_filtering (floor l : LogLevel) (sinks : List Sink)
    (msg : List Char) :
    (l.toNat < floor.toNat → emitToSinks floor sinks l msg = []) ∧
    (floor.toNat ≤ l.toNat → sinks.Nodup → ∀ s ∈ sinks,
      (emitToSinks floor sinks l msg).countP (fun p => p.1 == s) = 1) := by
  constructor
  · intro h
    simp [emitToSinks, h]
  · intro h hnd s hs
    rw [emitToSinks, if_neg (by omega), List.countP_map]
    exact List.count_eq_one_of_mem hnd hs

/-- Witness for C3: with floor `warn`, a call at `info` on one live sink is
dropped, and a call at `error` is delivered exactly once to the sink. -/
theorem log_level_floor_filtering_witness :
    emitToSinks LogLevel.warn [7] LogLevel.info ['h', 'i'] = [] ∧
    (emitToSinks LogLevel.warn [7] LogLevel.error ['h', 'i']).countP
        (fun p => p.1 == 7) = 1 :=
  ⟨(log_level_floor_filtering LogLevel.warn LogLevel.info [7] ['h', 'i']).1
      (by decide),
    (log_level_floor_filtering LogLevel.warn LogLevel.error [7] ['h', 'i']).2
      (by decide) (by decide) 7 (by decide)⟩

lemma start_logging_started (st : GlobalState) (kind : LoggingType)
    (ctor : Except Nat Sink) (s : Sink) (h : st.registry.get kind = some s) :
    start_logging kind ctor st = (st, Except.ok s) := by
  simp [start_logging, h]

lemma start_logging_get_self (st : GlobalState) (kind : LoggingType)
    (ns : Sink) (h : st.registry.get kind = none) :
    (start_logging kind (Except.ok ns) st).1.registry.get kind = some ns := by
  cases kind <;>
    (simp [Registry.get] at h; simp [start_logging, Registry.get, Registry.set, h])

/-- Claim C4: the registry holds at most one live sink per kind: starting an
already-started kind is a no-op returning the registered instance, and a
first start followed immediately by a second start leaves the second start a
no-op and the event-bus subscriber count larger by exactly one, not two. -/
theorem start_logging_single_instance (st : GlobalState) (kind : LoggingType)
    (ctor : Except Nat Sink) (s ns1 ns2 : Sink) :
    (st.registry.get kind = some s →
      start_logging kind ctor st = (st, Except.ok s)) ∧
    (st.registry.get kind = none →
      start_logging kind (Except.ok ns2)
          (start_logging kind (Except.ok ns1) st).1 =
        ((start_logging kind (Except.ok ns1) st).1, Except.ok ns1) ∧
      (start_logging kind (Except.ok ns1) st).1.busSubscribers.length =
        st.busSubscribers.length + 1) := by
  refine ⟨fun h => start_logging_started st kind ctor s h, fun h => ⟨?_, ?_⟩⟩
  · exact start_logging_started _ kind (Except.ok ns2) ns1
      (start_logging_get_self st kind ns1 h)
  · simp [start_logging, h]

/-- A state with the console slot live with sink 3 on the bus. -/
def stConsole : GlobalState := ⟨⟨some 3, none, none, none⟩, [3], LogLevel.info⟩

/-- The fresh state: empty registry, empty bus, floor `info`. -/
def st0 : GlobalState := ⟨emptyRegistry, [], LogLevel.info⟩

/-- Witness for C4: on a state with the console already live, a new start is
a no-op returning sink 3; from the fresh state, a double start keeps the
first instance and adds exactly one bus subscriber. -/
theorem start_logging_single_instance_witness :
    start_logging LoggingType.CONSOLE (Except.ok 9) stConsole =
        (stConsole, Except.ok 3) ∧
    (start_logging LoggingType.CONSOLE (Except.ok 6)
          (start_logging LoggingType.CONSOLE (Except.ok 5) st0).1 =
        ((start_logging LoggingType.CONSOLE (Except.ok 5) st0).1,
          Except.ok 5) ∧
      (start_logging LoggingType.CONSOLE
          (Except.ok 5) st0).1.busSubscribers.length =
        st0.busSubscribers.length + 1) :=
  ⟨(start_logging_single_instance stConsole LoggingType.CONSOLE
        (Except.ok 9) 3 5 6).1 (by decide),
    (start_logging_single_instance st0 LoggingType.CONSOLE
        (Except.ok 9) 3 5 6).2 (by decide)⟩

/-- Claim C5: whatever the body of `pause_all_logging_while` does, and
whether it exits normally or with an error, the registry and the event-bus
subscriber list after the scope are exactly those at scope entry. -/
theorem pause_all_logging_restores_state
    (body : GlobalState → Option Nat × GlobalState) (st : GlobalState) :
    (pause_all_logging_while body st).2.registry = st.registry ∧
    (pause_all_logging_while body st).2.busSubscribers = st.busSubscribers := by
  simp [pause_all_logging_while]

/-- Claim C6: inside a `pause_all_logging_while` scope the registry and the
event-bus subscriber list are empty, and any sequence of log calls made in
that state, at any levels, delivers zero events to the bus. -/
theorem pause_all_logging_silences_bus (st : GlobalState)
    (calls : List (LogLevel × List Char)) :
    (pausedState st).registry = emptyRegistry ∧
    (pausedState st).busSubscribers = [] ∧
    (calls.map (fun c => busDeliveries (pausedState st) c.1 c.2)).flatten
      = [] := by
  refine ⟨rfl, rfl, ?_⟩
  simp [busDeliveries, pausedState, emitToSinks, List.flatten_eq_nil_iff]

/-- Claim C8: stopping a kind that has never been started (or is already
stopped) is a no-op: no error and the state, registry and bus subscribers
included, is unchanged. -/
theorem stop_logging_noop (st : GlobalState) (kind : LoggingType)
    (h : st.registry.get kind = none) :
    stop_logging kind st = st := by
  simp [stop_logging, h]

/-- Witness for C8: stopping text-file logging on the fresh state. -/
theorem stop_logging_noop_witness : stop_logging LoggingType.TEXT st0 = st0 :=
  stop_logging_noop st0 LoggingType.TEXT (by decide)

/-- Claim C9: when the sink constructor fails during a start of a
not-yet-started kind, the error is returned synchronously to the caller and
the state, registry included, is exactly what it was before the call. -/
theorem start_logging_ctor_failure_atomic (st : GlobalState)
    (kind : LoggingType) (e : Nat) (h : st.registry.get kind = none) :
    start_logging kind (Except.error e) st = (st, Except.error e) := by
  simp [start_logging, h]

/-- Witness for C9: a failing sentry constructor on the fresh state. -/
theorem start_logging_ctor_failure_atomic_witness :
    start_logging LoggingType.SENTRY (Except.error 42) st0 =
      (st0, Except.error 42) :=
  start_logging_ctor_failure_atomic st0 LoggingType.SENTRY 42 (by decide)

end NucypherLog
